import Mathlib

/-!
Verification of the mssql-cli interactive client (reader.go).

Strings are modelled as lists of characters (`Str`), so that Go byte-string
operations (TrimSpace, ToUpper, HasPrefix, ...) become plain list functions
over which we can both compute and reason.  The readline collaborator is
modelled as a stream of events (a typed line, an interrupt, end of input, or
a read failure), exactly the distinctions Reader.ReadLine reacts to.  Time
is modelled as integer milliseconds, so the %.3f rendering of elapsed
seconds becomes an integer quotient plus a three-digit fraction.
-/

namespace MssqlCli

/-- Character strings, modelled as lists of characters. -/
abbrev Str := List Char

/-- ASCII whitespace, the characters Go strings.TrimSpace / strings.Fields
treat as space (restricted to ASCII, which covers every input in play). -/
def isGoSpace (c : Char) : Bool :=
  c = ' ' || c = '\t' || c = '\n' || c = '\x0b' || c = '\x0c' || c = '\r'

/-- Go strings.TrimSpace: strip whitespace from both ends. -/
def goTrimSpace (s : Str) : Str :=
  ((s.dropWhile isGoSpace).reverse.dropWhile isGoSpace).reverse

/-- Go strings.ToUpper (ASCII). -/
def goToUpper (s : Str) : Str := s.map Char.toUpper

/-- Go strings.ToLower (ASCII). -/
def goToLower (s : Str) : Str := s.map Char.toLower

/-- Go strings.HasPrefix. -/
def goStartsWith (s p : Str) : Bool := p.isPrefixOf s

/-- Go strings.HasSuffix. -/
def goEndsWith (s p : Str) : Bool := p.isSuffixOf s

/-- Go strings.TrimSuffix: drop one trailing occurrence of p, if present. -/
def goTrimSuffix (s p : Str) : Str :=
  if p.isSuffixOf s then s.take (s.length - p.length) else s

/-- Go strings.Join with a separator. -/
def goJoin (sep : Str) (xs : List Str) : Str := List.intercalate sep xs

/-- Go strings.Fields: split around runs of whitespace. -/
def goFields (s : Str) : List Str :=
  (s.foldr
    (fun c acc =>
      if isGoSpace c then [] :: acc
      else
        match acc with
        | [] => [[c]]
        | w :: ws => (c :: w) :: ws)
    []).filter (fun w => !w.isEmpty)

/-- A single reaction of the readline collaborator: a typed line, a user
interrupt, end of input, or some other read error. -/
inductive ReadEvent where
  | line (s : Str)
  | interrupt
  | eof
  | fail
deriving DecidableEq

/-- Models Reader.ReadLine (reader.go): an interrupt becomes the empty line,
end of input becomes the literal line "exit", any other error propagates. -/
def readLineGo : ReadEvent → Except Unit Str
  | .line s => .ok s
  | .interrupt => .ok []
  | .eof => .ok ("exit".toList)
  | .fail => .error ()

/-- Outcome of one round of CLI.readMultiLine: an early return with a final
string, a batch break carrying the retained lines, or a request for one more
line with the updated accumulation. -/
inductive RoundResult where
  | ret (s : Str)
  | brk (lines : List Str)
  | more (lines : List Str)
deriving DecidableEq

/-- One round of the CLI.readMultiLine loop body, given the lines accumulated
so far and the next read event. -/
def readRound (lines : List Str) (ev : ReadEvent) : RoundResult :=
  match readLineGo ev with
  | .error _ => .ret []
  | .ok line =>
    let trimmed := goTrimSpace line
    if trimmed.isEmpty && lines.isEmpty then .ret []
    else
      let lines2 := lines ++ [line]
      if goToUpper trimmed = ("GO".toList) then .brk lines2.dropLast
      else if goEndsWith trimmed (";".toList) then .brk lines2
      else .more lines2

/-- Final assembly of a batch in CLI.readMultiLine: join with newlines, trim,
strip one trailing semicolon. -/
def finishBatch (lines : List Str) : Str :=
  goTrimSuffix (goTrimSpace (goJoin ("\n".toList) lines)) (";".toList)

/-- CLI.readMultiLine driven by a finite list of read events.  `none` means
the event list was exhausted with the loop still requesting more input
(i.e. the accumulator has not produced a batch yet). -/
def readMultiLineGo : List Str → List ReadEvent → Option Str
  | _, [] => none
  | lines, ev :: rest =>
    match readRound lines ev with
    | .ret s => some s
    | .brk ls => some (finishBatch ls)
    | .more ls => readMultiLineGo ls rest

/-- The allow-list of query-leading keywords from isQuery (reader.go),
verbatim, including the mixed-case stored-procedure entries. -/
def queryKeywords : List Str :=
  ["SELECT", "SHOW", "WITH", "EXPLAIN",
   "EXEC sp_help", "EXEC sp_databases", "EXEC sp_tables",
   "EXEC sp_columns", "EXEC sp_who"].map String.toList

/-- isQuery (reader.go): uppercase the trimmed statement and test it against
each allow-list entry with strings.HasPrefix. -/
def isQuery (sqlStr : Str) : Bool :=
  let upper := goToUpper (goTrimSpace sqlStr)
  queryKeywords.any (fun p => goStartsWith upper p)

/-- The mutable session state of CLI that the meta-commands touch: current
database name, the timing toggle, and the row cap fixed at construction. -/
structure CLIState where
  database : Str
  timingEnabled : Bool
  maxRows : Nat
deriving DecidableEq

/-- NewCLI (reader.go): timing starts off, the row cap is 1000. -/
def initialCLI (database : Str) : CLIState :=
  { database := database, timingEnabled := false, maxRows := 1000 }

/-- CLI.getPrompt (reader.go): the current database name followed by
a greater-than sign and a space. -/
def getPrompt (st : CLIState) : Str := st.database ++ "> ".toList

/-- A call issued against the database connection: either sql.DB.Exec or
sql.DB.Query (with the statement text sent). -/
inductive DBCall where
  | exec (s : Str)
  | query (s : Str)
deriving DecidableEq

/-- Result of CLI.handleSpecialCommand: whether the command was recognized,
the session state afterwards, the lines written to the terminal, and the
calls issued against the database connection while handling it. -/
structure SpecialResult where
  handled : Bool
  state : CLIState
  output : List Str
  dbCalls : List DBCall
deriving DecidableEq

/-- The single-quote character, U+0027. -/
def sq : Char := Char.ofNat 39

/-- The static help text printed by CLI.showHelp (reader.go). -/
def helpText : Str :=
  ("\nSQL Server Commands\n===================\n\nGeneral:\n  help                    Show this help\n  exit, quit              Exit\n  clear, cls              Clear screen\n  timing                  Toggle timing\n  GO                      Execute batch (SQL Server style)\n\nDatabase:\n  USE <database>          Change database\n\nQuery Commands:\n  SELECT ...              Query data\n  INSERT ...              Insert data\n  UPDATE ...              Update data\n  DELETE ...              Delete data\n  \nSchema Commands:\n  CREATE TABLE ...        Create table\n  ALTER TABLE ...         Alter table\n  DROP TABLE ...          Drop table\n  CREATE INDEX ...        Create index\n  \nSystem Stored Procedures:\n  sp_help [table]         Show table info\n  sp_databases            List databases\n  sp_tables               List tables\n  sp_columns <table>      List columns\n  sp_who                  Show active connections\n  \nInformation Schema:\n  SELECT * FROM INFORMATION_SCHEMA.TABLES\n  SELECT * FROM INFORMATION_SCHEMA.COLUMNS WHERE TABLE_NAME = ").toList
  ++ [sq] ++ "table".toList ++ [sq]
  ++ ("\n  \nSystem Views:\n  SELECT * FROM sys.databases\n  SELECT * FROM sys.tables\n  SELECT * FROM sys.columns WHERE object_id = OBJECT_ID(").toList
  ++ [sq] ++ "table".toList ++ [sq]
  ++ (")\n\nFor more information: https://docs.microsoft.com/sql/\n").toList

/-- CLI.useDatabase (reader.go): always issues one Exec of USE [name] against
the connection; on error it prints the error and leaves the state alone, on
success it updates the current database and prints the confirmation. -/
def useDatabase (st : CLIState) (dbName : Str) (res : Except Str Unit) :
    CLIState × List Str × List DBCall :=
  let call := DBCall.exec ("USE [".toList ++ dbName ++ "]".toList)
  match res with
  | .error e => (st, [("Error: ".toList ++ e)], [call])
  | .ok _ =>
    ({ st with database := dbName },
     [("Changed database context to ".toList ++ [sq] ++ dbName ++ [sq] ++ ".".toList)],
     [call])

/-- The branch cascade of CLI.handleSpecialCommand, with the lowered trimmed
command passed explicitly (as the local cmdLower of the Go code).  The use
branch splits the raw command into fields and only acts when there are at
least two. -/
def dispatchSpecial (st : CLIState) (cmd cmdLower : Str) (res : Except Str Unit) :
    SpecialResult :=
  if cmdLower = "exit".toList ∨ cmdLower = "quit".toList then
    ⟨true, st, [[]], []⟩
  else if cmdLower = "help".toList then
    ⟨true, st, [helpText], []⟩
  else if cmdLower = "timing".toList then
    let st2 := { st with timingEnabled := !st.timingEnabled }
    ⟨true, st2,
     [if st2.timingEnabled then "Timing enabled".toList else "Timing disabled".toList], []⟩
  else if cmdLower = "clear".toList ∨ cmdLower = "cls".toList then
    ⟨true, st, ["\x1b[2J\x1b[H".toList], []⟩
  else if goStartsWith cmdLower ("use ".toList) then
    let parts := goFields cmd
    if 2 ≤ parts.length then
      let u := useDatabase st (parts.getD 1 []) res
      ⟨true, u.1, u.2.1, u.2.2⟩
    else ⟨true, st, [], []⟩
  else ⟨false, st, [], []⟩

/-- CLI.handleSpecialCommand (reader.go): lower-case the trimmed command and
dispatch on it. -/
def handleSpecialCommand (st : CLIState) (cmd : Str) (res : Except Str Unit) :
    SpecialResult :=
  dispatchSpecial st cmd (goToLower (goTrimSpace cmd)) res

/-- What one iteration of CLI.Start does with a completed statement. -/
inductive LoopAction where
  | exitLoop
  | continueLoop
  | runSql
deriving DecidableEq

/-- The dispatch step of CLI.Start on a non-empty, already trimmed statement:
a handled special command either exits the loop (exit and quit) or continues
it; anything else is executed as SQL. -/
def startStep (st : CLIState) (sqlStr : Str) (res : Except Str Unit) :
    LoopAction × CLIState × List Str :=
  let r := handleSpecialCommand st sqlStr res
  if r.handled then
    if goToLower sqlStr = "exit".toList ∨ goToLower sqlStr = "quit".toList then
      (.exitLoop, r.state, r.output)
    else (.continueLoop, r.state, r.output)
  else (.runSql, st, [])

/-- A temporal value, as far as the renderer formats one (Go layout
"2006-01-02 15:04:05"). -/
structure GoTime where
  year : Nat
  month : Nat
  day : Nat
  hour : Nat
  minute : Nat
  second : Nat
deriving DecidableEq

/-- Zero-pad a number to two digits. -/
def pad2 (n : Nat) : Str := (if n < 10 then ['0'] else []) ++ (Nat.repr n).toList

/-- Zero-pad a number to four digits. -/
def pad4 (n : Nat) : Str :=
  (if n < 10 then "000".toList else if n < 100 then "00".toList
   else if n < 1000 then "0".toList else []) ++ (Nat.repr n).toList

/-- Go time.Format "2006-01-02 15:04:05". -/
def formatGoTime (t : GoTime) : Str :=
  pad4 t.year ++ "-".toList ++ pad2 t.month ++ "-".toList ++ pad2 t.day
    ++ " ".toList ++ pad2 t.hour ++ ":".toList ++ pad2 t.minute
    ++ ":".toList ++ pad2 t.second

/-- The runtime kinds of a scanned cell value that CLI.displayTable
distinguishes: nil, a byte payload, a temporal value, and everything else
(carried as its Sprintf "%v" text). -/
inductive Value where
  | null
  | bytes (s : Str)
  | timeVal (t : GoTime)
  | other (s : Str)
deriving DecidableEq

/-- The per-cell formatting of CLI.displayTable: nil shows as NULL, bytes
decode as text, temporal values use the fixed layout, the rest keeps its
textual representation. -/
def formatCell : Value → Str
  | .null => "NULL".toList
  | .bytes s => s
  | .timeVal t => formatGoTime t
  | .other s => s

/-- The width-and-truncation step of CLI.displayTable for one formatted cell
against the column's current width: a cell longer than the width either
caps the width at 50 and truncates to 47 characters plus the ellipsis (when
longer than 50) or grows the width to its own length. -/
def processCell (s : Str) (w : Nat) : Str × Nat :=
  if w < s.length then
    if 50 < s.length then (s.take 47 ++ "...".toList, 50)
    else (s, s.length)
  else (s, w)

/-- processCell applied across one row of formatted cells, threading the
column widths. -/
def processCells : List Str → List Nat → List Str × List Nat
  | s :: ss, w :: ws =>
    let c := processCell s w
    let rest := processCells ss ws
    (c.1 :: rest.1, c.2 :: rest.2)
  | _, _ => ([], [])

/-- Initial column widths of CLI.displayTable: the column name's length
clamped into [4, 50]. -/
def initWidths (cols : List Str) : List Nat :=
  cols.map (fun c => min (max c.length 4) 50)

/-- The row-collection loop of CLI.displayTable: scan rows from the cursor,
format and width-process each, and stop as soon as the accumulated row count
has reached the row cap (further cursor rows are not fetched). -/
def collectRows (maxRows : Nat) :
    List (List Value) → List (List Str) → List Nat → List (List Str) × List Nat
  | [], acc, ws => (acc, ws)
  | r :: rest, acc, ws =>
    let p := processCells (r.map formatCell) ws
    let acc2 := acc ++ [p.1]
    if maxRows ≤ acc2.length then (acc2, p.2)
    else collectRows maxRows rest acc2 p.2

/-- Left-justified space padding to a field width (Go fmt %-*s). -/
def padRight (s : Str) (w : Nat) : Str := s ++ List.replicate (w - s.length) ' '

/-- CLI.printSeparator: a plus sign, then per column a dash run of
width + 2 followed by a plus sign. -/
def sepLine (ws : List Nat) : Str :=
  '+' :: ws.foldr (fun w acc => List.replicate (w + 2) '-' ++ '+' :: acc) []

/-- One table line of CLI.displayTable: a bar-space lead, then per column the
left-justified cell followed by space-bar-space. -/
def rowLine (ws : List Nat) (cells : List Str) : Str :=
  "| ".toList ++ (List.zipWith (fun w s => padRight s w ++ " | ".toList) ws cells).flatten

/-- The singular/plural row-count summary shared by CLI.displayTable and
CLI.executeCommand. -/
def pluralSummary (n : Nat) : Str :=
  if n = 0 then "(0 rows affected)".toList
  else if n = 1 then "(1 row affected)".toList
  else ("(".toList ++ (Nat.repr n).toList ++ " rows affected)".toList)

/-- The three fractional digits of the %.3f rendering of an elapsed time
given in milliseconds. -/
def frac3 (ms : Nat) : Str :=
  [Nat.digitChar (ms / 100 % 10), Nat.digitChar (ms / 10 % 10), Nat.digitChar (ms % 10)]

/-- The timing line (Go: Time: %.3f sec) for an elapsed time in
milliseconds. -/
def timeLine (ms : Nat) : Str :=
  "Time: ".toList ++ (Nat.repr (ms / 1000)).toList ++ ".".toList
    ++ frac3 (ms % 1000) ++ " sec".toList

/-- The complete line output of CLI.displayTable: border, header, border,
the collected data rows, border, the row-count summary, the timing line when
enabled, and a final blank line. -/
def displayTableOut (cols : List Str) (cursor : List (List Value)) (maxRows : Nat)
    (timing : Bool) (ms : Nat) : List Str :=
  let p := collectRows maxRows cursor [] (initWidths cols)
  [sepLine p.2, rowLine p.2 cols, sepLine p.2]
    ++ p.1.map (rowLine p.2)
    ++ [sepLine p.2]
    ++ [pluralSummary p.1.length]
    ++ (if timing then [timeLine ms] else [])
    ++ [[]]

/-- CLI.printError: the fixed diagnostic header, the raw error text, and a
blank line. -/
def printErrorOut (e : Str) : List Str :=
  ["Msg 50000, Level 16, State 1".toList, e, []]

/-- The line output of CLI.executeCommand: on error the diagnostic block, on
success the affected-count summary, the timing line when enabled, and a
final blank line. -/
def executeCommandOut (res : Except Str Nat) (timing : Bool) (ms : Nat) : List Str :=
  match res with
  | .error e => printErrorOut e
  | .ok affected =>
    [pluralSummary affected] ++ (if timing then [timeLine ms] else []) ++ [[]]

/-- Helper: an end-of-input event during batch accumulation appends the
literal line "exit" and keeps the loop asking for more input, whatever has
been accumulated so far. -/
theorem readRound_eof (lines : List Str) :
    readRound lines ReadEvent.eof = .more (lines ++ ["exit".toList]) := rfl

/-- C1 (code_bug): the classifier is not case-insensitive on the
stored-procedure entries of the allow-list.  Since the trimmed statement is
uppercased before the prefix tests, the mixed-case entries such as
"EXEC sp_who" can never match, so every EXEC invocation — in any case — is
classified NonQuery, against both the spec and the evident intent of the
allow-list.  The plain keyword prefixes do work case-insensitively. -/
theorem isQuery_sp_entries_never_match :
    isQuery ("exec sp_who".toList) = false ∧
    isQuery ("EXEC SP_WHO".toList) = false ∧
    isQuery ("EXEC sp_who".toList) = false ∧
    isQuery ("exec sp_help".toList) = false ∧
    isQuery ("  select * from t".toList) = true ∧
    isQuery ("update t set x=1".toList) = false := by
  refine ⟨?_, ?_, ?_, ?_, ?_, ?_⟩ <;> decide

/-- C2 (code_bug): on an input source that only signals end of input, the
batch accumulator never completes a batch: each round turns EOF into the
line "exit", which matches neither the GO separator nor a trailing
semicolon, so the loop appends it and asks for more input forever.  Start
therefore never regains control and never returns, instead of exiting
gracefully as the spec requires. -/
theorem readMultiLine_eof_never_completes :
    ∀ (n : Nat) (lines : List Str),
      readMultiLineGo lines (List.replicate n ReadEvent.eof) = none := by
  intro n
  induction n with
  | zero => intro lines; rfl
  | succ k ih =>
    intro lines
    rw [List.replicate_succ]
    simp only [readMultiLineGo, readRound_eof]
    exact ih _

/-- C4 counterexample: with one line already accumulated, an interrupt is
appended to the batch as an empty line, so the accumulated line sequence is
not the same before and after the interrupted round. -/
theorem readRound_interrupt_appends_empty :
    readRound (["SELECT 1".toList]) ReadEvent.interrupt
      = RoundResult.more (["SELECT 1".toList, []]) ∧
    (["SELECT 1".toList, []] : List Str) ≠ (["SELECT 1".toList]) :=
  ⟨rfl, by decide⟩

/-- C4 (amended): an interrupt on the first line of a batch aborts the batch
(the accumulator returns the empty statement); an interrupt on a
continuation line is treated as an empty typed line, which is appended to
the batch before accumulation continues. -/
theorem readRound_interrupt (lines : List Str) :
    readRound lines ReadEvent.interrupt =
      (if lines.isEmpty then RoundResult.ret [] else RoundResult.more (lines ++ [[]])) := by
  cases lines <;> rfl

/-- C6: the line sequence SELECT 1, GO accumulates to exactly SELECT 1 (the
GO line is dropped), and the single line SELECT 1; accumulates to exactly
SELECT 1 (the trailing semicolon is stripped after joining and trimming). -/
theorem readMultiLine_go_and_semicolon :
    readMultiLineGo [] [ReadEvent.line ("SELECT 1".toList), ReadEvent.line ("GO".toList)]
      = some ("SELECT 1".toList) ∧
    readMultiLineGo [] [ReadEvent.line ("SELECT 1;".toList)] = some ("SELECT 1".toList) :=
  ⟨by decide, by decide⟩

/-- C3 counterexample: handling the recognized meta-command use mydb issues
a call against the database connection (an Exec of USE [mydb]), so
meta-command handling is not entirely client-side. -/
theorem handleSpecial_use_issues_db_call :
    (handleSpecialCommand (initialCLI ("master".toList)) ("use mydb".toList)
        (Except.ok ())).dbCalls = [DBCall.exec ("USE [mydb]".toList)] ∧
    (handleSpecialCommand (initialCLI ("master".toList)) ("use mydb".toList)
        (Except.ok ())).dbCalls ≠ [] :=
  ⟨by decide, by decide⟩

/-- C3 (amended): every recognized meta-command except use is handled
without any database call; a use command with at least two
whitespace-delimited fields issues exactly one Exec of USE [name] (and no
query), and a use command with fewer than two fields issues no call. -/
theorem dispatchSpecial_dbCalls (st : CLIState) (cmd : Str) (res : Except Str Unit) :
    (∀ cmdLower : Str,
      (cmdLower = "exit".toList ∨ cmdLower = "quit".toList ∨ cmdLower = "help".toList ∨
       cmdLower = "timing".toList ∨ cmdLower = "clear".toList ∨ cmdLower = "cls".toList) →
      (dispatchSpecial st cmd cmdLower res).dbCalls = []) ∧
    (∀ t : Str,
      (dispatchSpecial st cmd ("use ".toList ++ t) res).dbCalls =
        if 2 ≤ (goFields cmd).length then
          [DBCall.exec ("USE [".toList ++ (goFields cmd).getD 1 [] ++ "]".toList)]
        else []) := by
  constructor
  · rintro cmdLower (h | h | h | h | h | h) <;> subst h <;> rfl
  · intro t
    have hred : dispatchSpecial st cmd ("use ".toList ++ t) res
        = (if 2 ≤ (goFields cmd).length
           then (⟨true, (useDatabase st ((goFields cmd).getD 1 []) res).1,
                  (useDatabase st ((goFields cmd).getD 1 []) res).2.1,
                  (useDatabase st ((goFields cmd).getD 1 []) res).2.2⟩ : SpecialResult)
           else ⟨true, st, [], []⟩) := by
      unfold dispatchSpecial
      rw [if_neg (by simp), if_neg (by simp), if_neg (by simp), if_neg (by simp),
          if_pos (by simp [goStartsWith])]
    rw [hred]
    by_cases h2 : 2 ≤ (goFields cmd).length
    · rw [if_pos h2, if_pos h2]
      cases res <;> rfl
    · rw [if_neg h2, if_neg h2]

/-- C3 witness: concrete instances of the amended statement, at the timing
meta-command (no database call) and at use mydb (one Exec call). -/
theorem dispatchSpecial_dbCalls_witness :
    (dispatchSpecial (initialCLI ("master".toList)) ("use mydb".toList)
        ("timing".toList) (Except.ok ())).dbCalls = [] ∧
    (dispatchSpecial (initialCLI ("master".toList)) ("use mydb".toList)
        ("use ".toList ++ "mydb".toList) (Except.ok ())).dbCalls =
      (if 2 ≤ (goFields ("use mydb".toList)).length then
        [DBCall.exec ("USE [".toList ++ (goFields ("use mydb".toList)).getD 1 [] ++ "]".toList)]
      else []) :=
  ⟨(dispatchSpecial_dbCalls (initialCLI ("master".toList)) ("use mydb".toList)
      (Except.ok ())).1 ("timing".toList) (by decide),
   (dispatchSpecial_dbCalls (initialCLI ("master".toList)) ("use mydb".toList)
      (Except.ok ())).2 ("mydb".toList)⟩

/-- C10: useDatabase updates the session database name only when the USE
execution succeeds; on an execution error the whole session state is
unchanged (so the prompt, which is always the database name followed by a
greater-than sign, is unchanged), the error is printed, and the session
loop continues after a use command rather than exiting. -/
theorem useDatabase_state_on_error (st : CLIState) (name e : Str)
    (res : Except Str Unit) :
    (useDatabase st name (Except.error e)).1 = st ∧
    (useDatabase st name (Except.error e)).2.1 = [("Error: ".toList ++ e)] ∧
    (useDatabase st name (Except.ok ())).1.database = name ∧
    (useDatabase st name (Except.ok ())).1.timingEnabled = st.timingEnabled ∧
    getPrompt (useDatabase st name (Except.error e)).1 = st.database ++ "> ".toList ∧
    (startStep st ("use mydb".toList) res).1 = LoopAction.continueLoop := by
  refine ⟨rfl, rfl, rfl, rfl, rfl, ?_⟩
  cases res <;> rfl

/-- C5 counterexample: in a one-column table whose first value is 60
characters long, the column width is capped at 50 after the first row, yet
the second value ab (length 2) is rendered unchanged — not truncated to 47
characters plus an ellipsis as the claim requires of every further value. -/
theorem collectRows_capped_short_value_untruncated :
    (collectRows 1000
        [[Value.bytes (List.replicate 60 'a')], [Value.bytes ("ab".toList)]]
        [] (initWidths [("c".toList)])).1
      = [[List.replicate 47 'a' ++ "...".toList], [("ab".toList)]] ∧
    (collectRows 1000
        [[Value.bytes (List.replicate 60 'a')], [Value.bytes ("ab".toList)]]
        [] (initWidths [("c".toList)])).2 = [50] ∧
    ("ab".toList : Str).length ≠ 50 :=
  ⟨by decide, by decide, by decide⟩

/-- C5 (amended): once a column's width has reached the 50-character cap it
never grows again, and a further value is truncated to 47 characters plus
the 3-character ellipsis exactly when its own length exceeds 50; shorter
values are rendered unchanged. -/
theorem processCell_at_cap (s : Str) :
    (processCell s 50).2 = 50 ∧
    (processCell s 50).1 = (if 50 < s.length then s.take 47 ++ "...".toList else s) := by
  by_cases h : 50 < s.length <;> simp [processCell, h]

/-- Helper: length of the collected rows, with the accumulator still under
the cap. -/
theorem collectRows_length (maxRows : Nat) (cursor : List (List Value)) :
    ∀ (acc : List (List Str)) (ws : List Nat), acc.length < maxRows →
      (collectRows maxRows cursor acc ws).1.length
        = min (acc.length + cursor.length) maxRows := by
  induction cursor with
  | nil =>
    intro acc ws h
    simp only [collectRows, List.length_nil, Nat.add_zero]
    omega
  | cons r rest ih =>
    intro acc ws h
    simp only [collectRows]
    by_cases hb : maxRows ≤ (acc ++ [(processCells (r.map formatCell) ws).1]).length
    · rw [if_pos hb]
      simp only [List.length_append, List.length_cons, List.length_nil] at *
      omega
    · rw [if_neg hb]
      have h2 : (acc ++ [(processCells (r.map formatCell) ws).1]).length < maxRows := by
        simp only [List.length_append, List.length_cons, List.length_nil] at hb ⊢
        omega
      rw [ih _ _ h2]
      simp only [List.length_append, List.length_cons, List.length_nil]
      omega

/-- Helper: the collection loop only ever looks at the part of the cursor up
to the cap, so rows beyond it are never fetched. -/
theorem collectRows_take (maxRows : Nat) (cursor : List (List Value)) :
    ∀ (acc : List (List Str)) (ws : List Nat), acc.length < maxRows →
      collectRows maxRows cursor acc ws
        = collectRows maxRows (cursor.take (maxRows - acc.length)) acc ws := by
  induction cursor with
  | nil => intro acc ws h; simp
  | cons r rest ih =>
    intro acc ws h
    obtain ⟨k, hk⟩ : ∃ k, maxRows - acc.length = k + 1 := ⟨maxRows - acc.length - 1, by omega⟩
    rw [hk, List.take_succ_cons]
    simp only [collectRows]
    by_cases hb : maxRows ≤ (acc ++ [(processCells (r.map formatCell) ws).1]).length
    · rw [if_pos hb, if_pos hb]
    · rw [if_neg hb, if_neg hb]
      have h2 : (acc ++ [(processCells (r.map formatCell) ws).1]).length < maxRows := by
        omega
      rw [ih _ _ h2]
      have h3 : k = maxRows - (acc ++ [(processCells (r.map formatCell) ws).1]).length := by
        simp only [List.length_append, List.length_cons, List.length_nil]
        simp only [List.length_append, List.length_cons, List.length_nil] at h2
        omega
      rw [h3]

/-- C7: for a cursor with strictly more rows than the cap, the renderer
collects exactly maxRows data rows, consumes only the first maxRows rows of
the cursor (the result is the same as on the truncated cursor, so the extra
rows are never fetched), and the trailing summary line reports exactly
maxRows. -/
theorem displayTable_row_cap (cols : List Str) (cursor : List (List Value))
    (maxRows : Nat) (timing : Bool) (ms : Nat)
    (hpos : 0 < maxRows) (hlen : maxRows < cursor.length) :
    (collectRows maxRows cursor [] (initWidths cols)).1.length = maxRows ∧
    collectRows maxRows cursor [] (initWidths cols)
      = collectRows maxRows (cursor.take maxRows) [] (initWidths cols) ∧
    displayTableOut cols cursor maxRows timing ms
      = [sepLine (collectRows maxRows cursor [] (initWidths cols)).2,
         rowLine (collectRows maxRows cursor [] (initWidths cols)).2 cols,
         sepLine (collectRows maxRows cursor [] (initWidths cols)).2]
        ++ (collectRows maxRows cursor [] (initWidths cols)).1.map
             (rowLine (collectRows maxRows cursor [] (initWidths cols)).2)
        ++ [sepLine (collectRows maxRows cursor [] (initWidths cols)).2]
        ++ [pluralSummary maxRows]
        ++ (if timing then [timeLine ms] else []) ++ [[]] := by
  have h1 : (collectRows maxRows cursor [] (initWidths cols)).1.length = maxRows := by
    rw [collectRows_length maxRows cursor [] (initWidths cols) (by simpa using hpos)]
    simp only [List.length_nil, Nat.zero_add]
    omega
  refine ⟨h1, ?_, ?_⟩
  · have h := collectRows_take maxRows cursor [] (initWidths cols) (by simpa using hpos)
    simpa using h
  · simp only [displayTableOut, h1]

/-- A one-column header used by concrete witnesses. -/
def wCols : List Str := [("c".toList)]

/-- A three-row cursor used by concrete witnesses. -/
def wCursor : List (List Value) := [[Value.null], [Value.null], [Value.null]]

/-- C7 witness: the row-cap behaviour at the concrete cap 2 on a three-row
cursor. -/
theorem displayTable_row_cap_witness :
    0 < 2 ∧ 2 < wCursor.length ∧
    ((collectRows 2 wCursor [] (initWidths wCols)).1.length = 2 ∧
     collectRows 2 wCursor [] (initWidths wCols)
       = collectRows 2 (wCursor.take 2) [] (initWidths wCols) ∧
     displayTableOut wCols wCursor 2 false 0
       = [sepLine (collectRows 2 wCursor [] (initWidths wCols)).2,
          rowLine (collectRows 2 wCursor [] (initWidths wCols)).2 wCols,
          sepLine (collectRows 2 wCursor [] (initWidths wCols)).2]
         ++ (collectRows 2 wCursor [] (initWidths wCols)).1.map
              (rowLine (collectRows 2 wCursor [] (initWidths wCols)).2)
         ++ [sepLine (collectRows 2 wCursor [] (initWidths wCols)).2]
         ++ [pluralSummary 2]
         ++ (if false then [timeLine 0] else []) ++ [[]]) :=
  ⟨by decide, by decide,
   displayTable_row_cap wCols wCursor 2 false 0 (by decide) (by decide)⟩

/-- C8: a formatted cell longer than 50 characters is rendered as its first
47 characters followed by the 3-character ellipsis — exactly 50 characters,
ending in the ellipsis — and the column's width is exactly 50 afterwards
(the current width never exceeds 50 inside the renderer). -/
theorem processCell_truncation (s : Str) (w : Nat) (hw : w ≤ 50) (hs : 50 < s.length) :
    (processCell s w).1 = s.take 47 ++ "...".toList ∧
    (processCell s w).1.length = 50 ∧
    ("...".toList) <:+ (processCell s w).1 ∧
    (processCell s w).2 = 50 := by
  have hwlt : w < s.length := lt_of_le_of_lt hw hs
  have hcell : (processCell s w).1 = s.take 47 ++ "...".toList := by
    simp only [processCell, if_pos hwlt, if_pos hs]
  have hwid : (processCell s w).2 = 50 := by
    simp only [processCell, if_pos hwlt, if_pos hs]
  refine ⟨hcell, ?_, ?_, hwid⟩
  · rw [hcell]
    have h3 : ("...".toList : Str).length = 3 := rfl
    simp only [List.length_append, List.length_take, h3]
    omega
  · rw [hcell]
    exact List.suffix_append _ _

/-- C8 witness: truncation of a concrete 51-character value at initial
width 4. -/
theorem processCell_truncation_witness :
    4 ≤ 50 ∧ 50 < (List.replicate 51 'a' : Str).length ∧
    ((processCell (List.replicate 51 'a') 4).1
        = (List.replicate 51 'a' : Str).take 47 ++ "...".toList ∧
     (processCell (List.replicate 51 'a') 4).1.length = 50 ∧
     ("...".toList) <:+ (processCell (List.replicate 51 'a') 4).1 ∧
     (processCell (List.replicate 51 'a') 4).2 = 50) :=
  ⟨by decide, by decide,
   processCell_truncation (List.replicate 51 'a') 4 (by decide) (by decide)⟩

/-- Helper: the decimal digit characters are digits. -/
theorem digitChar_isDigit (k : Nat) (h : k < 10) : (Nat.digitChar k).isDigit = true := by
  interval_cases k <;> rfl

/-- C9: both execution paths end with the exact singular/plural summary —
count 0 gives (0 rows affected), count 1 gives (1 row affected), any count
of at least 2 gives (N rows affected) — followed, only when timing is
enabled, by a Time line whose fractional part has exactly three decimal
digits, followed in all cases by one blank line. -/
theorem summary_output_format (a ms : Nat) (timing : Bool)
    (cols : List Str) (cursor : List (List Value)) (maxRows : Nat) :
    (a = 0 → pluralSummary a = "(0 rows affected)".toList) ∧
    (a = 1 → pluralSummary a = "(1 row affected)".toList) ∧
    (2 ≤ a → pluralSummary a = "(".toList ++ (Nat.repr a).toList ++ " rows affected)".toList) ∧
    executeCommandOut (Except.ok a) timing ms
      = [pluralSummary a] ++ (if timing then [timeLine ms] else []) ++ [[]] ∧
    timeLine ms = "Time: ".toList ++ (Nat.repr (ms / 1000)).toList ++ ".".toList
      ++ frac3 (ms % 1000) ++ " sec".toList ∧
    (frac3 (ms % 1000)).length = 3 ∧
    (∀ c ∈ frac3 (ms % 1000), c.isDigit = true) ∧
    (∃ pre, displayTableOut cols cursor maxRows timing ms
      = pre ++ [pluralSummary (collectRows maxRows cursor [] (initWidths cols)).1.length]
        ++ (if timing then [timeLine ms] else []) ++ [[]]) := by
  refine ⟨?_, ?_, ?_, rfl, rfl, rfl, ?_, ?_⟩
  · intro h; subst h; rfl
  · intro h; subst h; rfl
  · intro h
    simp only [pluralSummary]
    rw [if_neg (by omega), if_neg (by omega)]
  · intro c hc
    simp only [frac3, List.mem_cons, List.not_mem_nil, or_false] at hc
    rcases hc with h | h | h <;> subst h <;>
      exact digitChar_isDigit _ (Nat.mod_lt _ (by norm_num))
  · refine ⟨[sepLine (collectRows maxRows cursor [] (initWidths cols)).2,
      rowLine (collectRows maxRows cursor [] (initWidths cols)).2 cols,
      sepLine (collectRows maxRows cursor [] (initWidths cols)).2]
      ++ (collectRows maxRows cursor [] (initWidths cols)).1.map
           (rowLine (collectRows maxRows cursor [] (initWidths cols)).2)
      ++ [sepLine (collectRows maxRows cursor [] (initWidths cols)).2], ?_⟩
    simp [displayTableOut]

/-- C9 witness: the summary phrasing at the concrete counts 0, 1 and 3. -/
theorem summary_output_format_witness :
    pluralSummary 0 = "(0 rows affected)".toList ∧
    pluralSummary 1 = "(1 row affected)".toList ∧
    pluralSummary 3 = "(".toList ++ (Nat.repr 3).toList ++ " rows affected)".toList :=
  ⟨(summary_output_format 0 0 false [] [] 0).1 rfl,
   (summary_output_format 1 0 false [] [] 0).2.1 rfl,
   (summary_output_format 3 0 false [] [] 0).2.2.1 (by norm_num)⟩

end MssqlCli
